import Mathlib

/- Shallow embedding of the proxy repository (src/server.py and src/proxy.py):
   the credential store, the Basic-auth decoder, the authentication gate,
   CONNECT target resolution, forward-header construction, the request-body
   copy loop, the CONNECT tunnel relay loop, and the reverse-relay route.
   Strings are modelled as Lean String / List Char; byte streams as List Nat. -/

namespace Proxy

/-- The characters Python str.split() (no argument) treats as whitespace. -/
def isPySpace (c : Char) : Bool :=
  c.toNat ∈ [0x9, 0xa, 0xb, 0xc, 0xd, 0x1c, 0x1d, 0x1e, 0x1f, 0x20, 0x85, 0xa0,
    0x1680, 0x2000, 0x2001, 0x2002, 0x2003, 0x2004, 0x2005, 0x2006, 0x2007,
    0x2008, 0x2009, 0x200a, 0x2028, 0x2029, 0x202f, 0x205f, 0x3000]

/-- Helper for pySplit: accumulates the current token (reversed). -/
def pySplitAux : List Char → List Char → List (List Char)
  | [], acc => if acc.isEmpty then [] else [acc.reverse]
  | c :: rest, acc =>
    if isPySpace c then
      if acc.isEmpty then pySplitAux rest []
      else acc.reverse :: pySplitAux rest []
    else pySplitAux rest (c :: acc)

/-- Python str.split() with no argument: split on runs of whitespace,
discarding empty tokens. -/
def pySplit (s : List Char) : List (List Char) := pySplitAux s []

/-- Value of one character of the standard base64 alphabet. -/
def b64val (c : Char) : Option Nat :=
  if 'A' ≤ c ∧ c ≤ 'Z' then some (c.toNat - 65)
  else if 'a' ≤ c ∧ c ≤ 'z' then some (c.toNat - 71)
  else if '0' ≤ c ∧ c ≤ '9' then some (c.toNat + 4)
  else if c = '+' then some 62
  else if c = '/' then some 63
  else none

/-- CPython binascii.a2b_base64 in non-strict mode (what base64.b64decode
uses): characters outside the alphabet are discarded; a pad character at quad
position 0 or 1 is discarded; pads at quad position 2 or 3 that complete a
quad end the decode, ignoring the remaining input; input ending at quad
position 1, or at position 2 or 3 without completing padding, is an error
(modelled as none). Arguments: input, quad position, leftover bits, pads
seen. -/
def b64run : List Char → Nat → Nat → Nat → Option (List Nat)
  | [], qp, _, _ => if qp = 0 then some [] else none
  | c :: rest, qp, left, pads =>
    if c = '=' then
      if 2 ≤ qp then
        if 4 ≤ qp + pads + 1 then some []
        else b64run rest qp left (pads + 1)
      else b64run rest qp left pads
    else
      match b64val c with
      | none => b64run rest qp left pads
      | some v =>
        match qp with
        | 0 => b64run rest 1 v 0
        | 1 => (b64run rest 2 (v % 16) 0).map (fun bs => (left * 4 + v / 16) :: bs)
        | 2 => (b64run rest 3 (v % 4) 0).map (fun bs => (left * 16 + v / 4) :: bs)
        | _ => (b64run rest 0 0 0).map (fun bs => (left * 64 + v) :: bs)

/-- Python base64.b64decode applied to a str: the str is first encoded as
ASCII (failure for any character ≥ 128), then decoded in non-strict mode. -/
def b64decodePy (token : List Char) : Option (List Nat) :=
  if token.all (fun c => c.toNat < 128) then b64run token 0 0 0 else none

/-- Is the byte a UTF-8 continuation byte? -/
def isCont (b : Nat) : Bool := 0x80 ≤ b ∧ b ≤ 0xbf

/-- Valid second byte of a three-byte UTF-8 sequence (excludes overlongs and
surrogates, as Python does). -/
def utf8Second3 (b1 b2 : Nat) : Bool :=
  if b1 = 0xe0 then 0xa0 ≤ b2 ∧ b2 ≤ 0xbf
  else if b1 = 0xed then 0x80 ≤ b2 ∧ b2 ≤ 0x9f
  else isCont b2

/-- Valid second byte of a four-byte UTF-8 sequence. -/
def utf8Second4 (b1 b2 : Nat) : Bool :=
  if b1 = 0xf0 then 0x90 ≤ b2 ∧ b2 ≤ 0xbf
  else if b1 = 0xf4 then 0x80 ≤ b2 ∧ b2 ≤ 0x8f
  else isCont b2

/-- Python bytes.decode(errors="ignore"): UTF-8 decoding that drops invalid
bytes. Skipping one byte on an invalid sequence and resuming agrees with
Python output, because dropped continuation bytes are themselves invalid
start bytes and are skipped in turn. -/
def utf8IgnoreFuel : Nat → List Nat → List Char
  | 0, _ => []
  | _, [] => []
  | fuel + 1, b1 :: rest =>
    if b1 < 0x80 then Char.ofNat b1 :: utf8IgnoreFuel fuel rest
    else if 0xc2 ≤ b1 ∧ b1 ≤ 0xdf then
      match rest with
      | b2 :: rest2 =>
        if isCont b2 then Char.ofNat ((b1 - 0xc0) * 64 + (b2 - 0x80)) :: utf8IgnoreFuel fuel rest2
        else utf8IgnoreFuel fuel (b2 :: rest2)
      | [] => []
    else if 0xe0 ≤ b1 ∧ b1 ≤ 0xef then
      match rest with
      | b2 :: b3 :: rest3 =>
        if utf8Second3 b1 b2 ∧ isCont b3 then
          Char.ofNat ((b1 - 0xe0) * 4096 + (b2 - 0x80) * 64 + (b3 - 0x80)) :: utf8IgnoreFuel fuel rest3
        else utf8IgnoreFuel fuel (b2 :: b3 :: rest3)
      | [b2] => utf8IgnoreFuel fuel [b2]
      | [] => []
    else if 0xf0 ≤ b1 ∧ b1 ≤ 0xf4 then
      match rest with
      | b2 :: b3 :: b4 :: rest4 =>
        if utf8Second4 b1 b2 ∧ isCont b3 ∧ isCont b4 then
          Char.ofNat ((b1 - 0xf0) * 262144 + (b2 - 0x80) * 4096 + (b3 - 0x80) * 64 + (b4 - 0x80))
            :: utf8IgnoreFuel fuel rest4
        else utf8IgnoreFuel fuel (b2 :: b3 :: b4 :: rest4)
      | [b2, b3] => utf8IgnoreFuel fuel [b2, b3]
      | [b2] => utf8IgnoreFuel fuel [b2]
      | [] => []
    else utf8IgnoreFuel fuel rest

/-- Python bytes.decode(errors="ignore"), entry point: every step of
utf8IgnoreFuel consumes at least one input byte, so fuel equal to the input
length never runs out. -/
def utf8Ignore (bs : List Nat) : List Char := utf8IgnoreFuel bs.length bs

/-- Python s.split(sep, 1) for a single-character separator that is known to
occur: the part before the first colon and the part after it. -/
def splitFirstColon : List Char → List Char × List Char
  | [] => ([], [])
  | c :: rest =>
    if c = ':' then ([], rest)
    else
      let (u, p) := splitFirstColon rest
      (c :: u, p)

/-- ASCII lowering, modelling Python str.lower() on the characters that can
compare equal to "basic". -/
def lowerStr (s : String) : String := String.mk (s.data.map Char.toLower)

/-- The try block of parse_basic_auth (src/server.py lines 82-88) applied to
the credential token: decode base64, decode UTF-8 ignoring bad bytes, and if
a colon occurs split at the first colon; anything else gives none. -/
def parseToken (token : List Char) : Option (String × String) :=
  match b64decodePy token with
  | some bs =>
    let decoded := utf8Ignore bs
    if decoded.contains ':' then
      some (String.mk (splitFirstColon decoded).1, String.mk (splitFirstColon decoded).2)
    else none
  | none => none

/-- src/server.py parse_basic_auth (lines 73-89): returns the credential pair
or none (the source's (None, None)); the try/except around base64 decoding is
modelled by b64decodePy returning none. -/
def parse_basic_auth (headerValue : String) : Option (String × String) :=
  if headerValue = "" then none
  else
    match pySplit headerValue.data with
    | [scheme, token] =>
      if scheme.map Char.toLower = "basic".data then parseToken token
      else none
    | _ => none

/-- One row of the users table (src/server.py init_db, lines 30-43). -/
structure UserRec where
  salt : String
  hash : String
  iterations : Nat
  algo : String
  deriving DecidableEq

/-- src/server.py PBKDF2_ITER (line 25). -/
def PBKDF2_ITER : Nat := 200000

/-- The credential database: username (primary key) to stored record. -/
def Db := String → Option UserRec

/-- hashlib.pbkdf2_hmac("sha256", password, salt, iterations).hex() is a
library primitive; the embedding is parameterised over it. Arguments:
password, salt, iteration count; result: the hex digest string. -/
def Pbkdf2 := String → String → Nat → String

/-- src/server.py create_user (lines 45-54): INSERT OR REPLACE of one row;
the freshly generated salt (secrets.token_hex) is passed in explicitly. -/
def create_user (kdf : Pbkdf2) (db : Db) (username password salt : String) : Db :=
  fun q =>
    if q = username then
      some ⟨salt, kdf password salt PBKDF2_ITER, PBKDF2_ITER, "pbkdf2_sha256"⟩
    else db q

/-- src/server.py verify_user (lines 56-68). -/
def verify_user (kdf : Pbkdf2) (db : Db) (username password : String) : Bool :=
  match db username with
  | none => false
  | some r =>
    if r.algo ≠ "pbkdf2_sha256" then false
    else decide (kdf password r.salt r.iterations = r.hash)

/-- src/server.py HOP_BY_HOP (lines 91-94). -/
def HOP_BY_HOP : List String :=
  ["connection", "keep-alive", "proxy-authenticate", "proxy-authorization",
   "te", "trailer", "transfer-encoding", "upgrade"]

/-- email.message.Message.get: case-insensitive lookup returning the first
matching header. Request headers are modelled as a list of (name, value)
pairs in arrival order. -/
def getHeaderCI (hs : List (String × String)) (name : String) : Option String :=
  (hs.find? (fun kv => lowerStr kv.1 = lowerStr name)).map (fun kv => kv.2)

/-- src/server.py ProxyHandler.check_auth (lines 111-118): Python falsiness
of the header value and of the username is the emptiness test. -/
def check_auth (kdf : Pbkdf2) (db : Db) (hs : List (String × String)) : Bool :=
  match getHeaderCI hs "Proxy-Authorization" with
  | none => false
  | some a =>
    if a = "" then false
    else
      match parse_basic_auth a with
      | none => false
      | some (user, pw) => if user = "" then false else verify_user kdf db user pw

/-- A response the handler sends itself (status plus the headers the source
adds explicitly). -/
structure Response where
  status : Nat
  headers : List (String × String)
  deriving DecidableEq

/-- src/server.py ProxyHandler.do_AUTH_REQUIRED (lines 106-109). -/
def authRequiredResponse : Response :=
  ⟨407, [("Proxy-Authenticate", "Basic realm=\"SecureProxy\"")]⟩

/-- Python decimal digit-string value, underscores already removed. -/
def digitsValAux : List Char → Nat → Nat
  | [], acc => acc
  | c :: rest, acc => digitsValAux rest (acc * 10 + (c.toNat - 48))

/-- Continuation of a Python int literal after its first digit:
(digit | underscore digit)*. -/
def pyDigitsRest : List Char → Bool
  | [] => true
  | c :: rest =>
    if c = '_' then
      match rest with
      | [] => false
      | c2 :: rest2 => c2.isDigit && pyDigitsRest rest2
    else c.isDigit && pyDigitsRest rest

/-- Valid digit part of a Python int literal: nonempty, underscores only
between digits. -/
def pyDigitsOk : List Char → Bool
  | [] => false
  | c :: rest => c.isDigit && pyDigitsRest rest

/-- Strip Python whitespace from both ends. -/
def pyStrip (s : List Char) : List Char :=
  ((s.dropWhile isPySpace).reverse.dropWhile isPySpace).reverse

/-- The numeric value of a digit part, ignoring underscores. -/
def digitsValU (s : List Char) : Nat :=
  digitsValAux (s.filter (fun c => c ≠ '_')) 0

/-- Python int(str) on the ASCII fragment: surrounding whitespace stripped,
optional sign, decimal digits with underscores between digits; none models
the ValueError raised on anything else. (Non-ASCII digit forms, which the
builtin also accepts, are outside the modelled fragment; CONNECT targets are
ASCII.) -/
def pyInt (s : List Char) : Option Int :=
  match pyStrip s with
  | [] => none
  | c :: rest =>
    if c = '+' then
      if pyDigitsOk rest then some (Int.ofNat (digitsValU rest)) else none
    else if c = '-' then
      if pyDigitsOk rest then some (-(Int.ofNat (digitsValU rest))) else none
    else if pyDigitsOk (c :: rest) then some (Int.ofNat (digitsValU (c :: rest)))
    else none

/-- Python s.rpartition(":") restricted to what do_CONNECT uses: some (before,
after) around the last colon, or none when no colon occurs. -/
def rpartList : List Char → Option (List Char × List Char)
  | [] => none
  | c :: rest =>
    match rpartList rest with
    | some (a, b) => some (c :: a, b)
    | none => if c = ':' then some ([], rest) else none

/-- Target resolution in do_CONNECT (src/server.py lines 125-126):
host, _, port = self.path.rpartition(":"); port = int(port) if port else 443.
With no colon, rpartition puts the whole path into the port slot and the host
is the empty string; none models the uncaught ValueError from int(). -/
def connectTarget (path : List Char) : Option (List Char × Int) :=
  match rpartList path with
  | some (h, p) => if p = [] then some (h, 443) else (pyInt p).map (fun n => (h, n))
  | none => if path = [] then some ([], 443) else (pyInt path).map (fun n => ([], n))

/-- The request methods the handler implements (do_CONNECT and the seven
do_VERB forwarders, src/server.py lines 120, 226-232). -/
inductive Method
  | CONNECT | GET | POST | PUT | DELETE | OPTIONS | HEAD | PATCH
  deriving DecidableEq

/-- What the handler decides to do with a request, up to the point the claims
are about: answer 407 itself, hand the resolved target to the tunnel relay,
crash on an uncaught exception, or continue into the forward relay. -/
inductive Action
  | respond (r : Response)
  | openTunnel (host : List Char) (port : Int)
  | uncaughtError
  | forwardStage
  deriving DecidableEq

/-- The per-method entry points of ProxyHandler: both do_CONNECT (lines
120-126) and _do_forward (lines 165-168) first gate on check_auth and answer
do_AUTH_REQUIRED on failure; an authenticated CONNECT then resolves its
tunnel target, any other verb proceeds into the forward relay. -/
def handleRequest (kdf : Pbkdf2) (db : Db) (m : Method) (path : String)
    (hs : List (String × String)) : Action :=
  if check_auth kdf db hs then
    match m with
    | .CONNECT =>
      match connectTarget path.data with
      | some (h, p) => .openTunnel h p
      | none => .uncaughtError
    | _ => .forwardStage
  else .respond authRequiredResponse

/-- Python dict assignment d[k] = v: overwrite in place if the key exists,
else append. -/
def dictUpd (d : List (String × String)) (k v : String) : List (String × String) :=
  if d.any (fun kv => kv.1 = k) then d.map (fun kv => if kv.1 = k then (k, v) else kv)
  else d ++ [(k, v)]

/-- A Python dict built from a list of pairs in order (first position, last
value wins for duplicate keys), as the dict comprehension in _filter_headers
does. -/
def pyDictOf (l : List (String × String)) : List (String × String) :=
  l.foldl (fun d kv => dictUpd d kv.1 kv.2) []

/-- The comprehension condition of _filter_headers: k.lower() not in
HOP_BY_HOP. -/
def keepHeader (k : String) : Bool := decide (lowerStr k ∉ HOP_BY_HOP)

/-- src/server.py ProxyHandler._filter_headers (lines 162-163). -/
def filter_headers (hs : List (String × String)) : List (String × String) :=
  pyDictOf (hs.filter (fun kv => keepHeader kv.1))

/-- First-match lookup in a Python dict modelled as an ordered pair list. -/
def dictGet (k : String) : List (String × String) → Option String
  | [] => none
  | kv :: rest => if kv.1 = k then some kv.2 else dictGet k rest

/-- The value of the last header with a given (case-sensitive) name. -/
def lookupLast (k : String) : List (String × String) → Option String
  | [] => none
  | kv :: rest =>
    match lookupLast k rest with
    | some v => some v
    | none => if kv.1 = k then some kv.2 else none

/-- Python dict.pop(k, None): case-sensitive key removal. -/
def dictPop (d : List (String × String)) (k : String) : List (String × String) :=
  d.filter (fun kv => kv.1 ≠ k)

/-- Python k in dict: case-sensitive key test. -/
def dictHasKey (d : List (String × String)) (k : String) : Bool :=
  d.any (fun kv => kv.1 = k)

/-- Header construction in _do_forward (src/server.py lines 197-200): filter
hop-by-hop, pop Proxy-Authorization, default Host to the resolved target
host. The result lists the headers sent upstream, in order. -/
def buildForwardHeaders (clientHeaders : List (String × String)) (targetHost : String) :
    List (String × String) :=
  if dictHasKey (dictPop (filter_headers clientHeaders) "Proxy-Authorization") "Host" then
    dictPop (filter_headers clientHeaders) "Proxy-Authorization"
  else dictPop (filter_headers clientHeaders) "Proxy-Authorization" ++ [("Host", targetHost)]

/-- Body copy loop of _do_forward (src/server.py lines 206-214), fuelled:
remaining counts down from Content-Length; each iteration reads
min(8192, remaining) bytes from the client stream (a buffered read returns
that many bytes unless the stream ends first) and sends them upstream. Every
productive iteration consumes at least one byte of remaining, so fuel equal
to the initial remaining never runs out. -/
def forwardBodyFuel : Nat → Nat → List Nat → List Nat
  | 0, _, _ => []
  | fuel + 1, remaining, stream =>
    if remaining = 0 then []
    else
      let chunk := stream.take (min 8192 remaining)
      if chunk.isEmpty then []
      else chunk ++ forwardBodyFuel fuel (remaining - chunk.length) (stream.drop chunk.length)

/-- The bytes _do_forward sends upstream for a request with Content-Length
remaining and the given client byte stream. -/
def forwardBody (remaining : Nat) (stream : List Nat) : List Nat :=
  forwardBodyFuel remaining remaining stream

/-- One iteration of the tunnel relay loop as the environment presents it:
the select call times out, readiness is signalled with the recv results for
each ready side (some [] is a recv of zero bytes, i.e. peer close; none means
the side was not ready), or an I/O error is raised by recv/sendall. -/
inductive TunnelEv
  | timeout
  | evData (c r : Option (List Nat))
  | ioFailure
  deriving DecidableEq

/-- Why the relay loop stopped; ongoing means the event list ran out with the
loop still live. -/
inductive ExitReason
  | clientClosed | remoteClosed | idleTimeout | ioFailed | ongoing
  deriving DecidableEq

/-- Outcome of the relay loop: exit cause and the chunks relayed to each
side, in order. -/
structure RelayOut where
  exit : ExitReason
  sentToRemote : List (List Nat)
  sentToClient : List (List Nat)
  deriving DecidableEq

/-- The select loop of do_CONNECT (src/server.py lines 141-155): an empty
ready list breaks the loop; the client side is drained first and a
zero-length read breaks before the remote side is considered; nonempty reads
are relayed to the opposite socket. -/
def relayLoop : List TunnelEv → RelayOut
  | [] => ⟨.ongoing, [], []⟩
  | .timeout :: _ => ⟨.idleTimeout, [], []⟩
  | .ioFailure :: _ => ⟨.ioFailed, [], []⟩
  | .evData c r :: rest =>
    match c, r with
    | some [], _ => ⟨.clientClosed, [], []⟩
    | some (b :: bs), some [] => ⟨.remoteClosed, [b :: bs], []⟩
    | some (b :: bs), some (b2 :: bs2) =>
      let out := relayLoop rest
      ⟨out.exit, (b :: bs) :: out.sentToRemote, (b2 :: bs2) :: out.sentToClient⟩
    | some (b :: bs), none =>
      let out := relayLoop rest
      ⟨out.exit, (b :: bs) :: out.sentToRemote, out.sentToClient⟩
    | none, some [] => ⟨.remoteClosed, [], []⟩
    | none, some (b2 :: bs2) =>
      let out := relayLoop rest
      ⟨out.exit, out.sentToRemote, (b2 :: bs2) :: out.sentToClient⟩
    | none, none => relayLoop rest

/-- The try/finally around the relay loop (src/server.py lines 141-160): when
the loop exits for any reason the finally block closes both sockets (close
errors swallowed); while the loop is still live neither is closed. Returns
(loop outcome, client socket closed, remote socket closed). -/
def runTunnel (evs : List TunnelEv) : RelayOut × Bool × Bool :=
  match (relayLoop evs).exit with
  | .ongoing => (relayLoop evs, false, false)
  | _ => (relayLoop evs, true, true)

/-- The methods src/proxy.py registers on its catch-all route (line 24). -/
def SUPPORTED_METHODS : List String :=
  ["GET", "POST", "PUT", "PATCH", "DELETE", "OPTIONS", "HEAD"]

/-- What the reverse-relay route decides for a request. -/
inductive RouteResult
  | methodNotAllowed
  | notFound404
  | forwardTo (url : String)
  deriving DecidableEq

/-- Python str.startswith on a character list. -/
def listStartsWith : List Char → List Char → Bool
  | _, [] => true
  | [], _ :: _ => false
  | c :: s, p :: pre => c = p && listStartsWith s pre

/-- src/proxy.py proxy (lines 24-36): methods outside the route list are
rejected by the framework; a path not starting with "v1/" gets a 404 JSON
error; otherwise the request is forwarded to the fixed upstream
https://api.openai.com/<path> over TLS. -/
def proxyRoute (method : String) (path : String) : RouteResult :=
  if ¬ (method ∈ SUPPORTED_METHODS) then .methodNotAllowed
  else if ¬ (listStartsWith path.data "v1/".data = true) then .notFound404
  else .forwardTo ("https://api.openai.com/" ++ path)

/-- Concrete environment used by several witnesses: a digest primitive that
is the identity in the password (trivially collision-free), one provisioned
user alice with password pw, and the matching Proxy-Authorization header
(base64 of alice:pw). -/
def kdf0 : Pbkdf2 := fun p _ _ => p

/-- Concrete store holding only user alice, hash as produced by kdf0. -/
def db0 : Db :=
  fun q => if q = "alice" then some ⟨"s", "pw", 200000, "pbkdf2_sha256"⟩ else none

/-- Headers carrying valid credentials for db0 under kdf0. -/
def hs0 : List (String × String) := [("Proxy-Authorization", "Basic YWxpY2U6cHc=")]

/-- C2: a credential provisioned by create_user verifies against its own
password, and against any other password verify_user returns false, assuming
the digest primitive is collision-free at the stored salt and iteration
count. -/
theorem c2_provision_roundtrip (kdf : Pbkdf2) (db : Db) (u pw salt : String) :
    verify_user kdf (create_user kdf db u pw salt) u pw = true ∧
    ∀ pw2, pw2 ≠ pw →
      (∀ a b, kdf a salt PBKDF2_ITER = kdf b salt PBKDF2_ITER → a = b) →
      verify_user kdf (create_user kdf db u pw salt) u pw2 = false := by
  constructor
  · simp [verify_user, create_user]
  · intro pw2 hne hinj
    simp [verify_user, create_user, decide_eq_false_iff_not]
    intro h
    exact hne (hinj pw2 pw h)

/-- Witness for C2 at a concrete store, user and digest primitive. -/
theorem c2_provision_roundtrip_witness :
    verify_user kdf0 (create_user kdf0 (fun _ => none) "alice" "pw" "s") "alice" "pw" = true ∧
    verify_user kdf0 (create_user kdf0 (fun _ => none) "alice" "pw" "s") "alice" "other" = false :=
  ⟨(c2_provision_roundtrip kdf0 (fun _ => none) "alice" "pw" "s").1,
   (c2_provision_roundtrip kdf0 (fun _ => none) "alice" "pw" "s").2 "other" (by decide)
     (fun a b h => h)⟩

/-- C8: verify_user returns false (and, being a total function, cannot raise)
both for a username with no record and for a record whose algorithm tag is
not pbkdf2_sha256. -/
theorem c8_verify_never_raises (kdf : Pbkdf2) (db : Db) (u pw : String) :
    (db u = none → verify_user kdf db u pw = false) ∧
    (∀ r, db u = some r → r.algo ≠ "pbkdf2_sha256" → verify_user kdf db u pw = false) := by
  constructor
  · intro h; simp [verify_user, h]
  · intro r hr halgo; simp [verify_user, hr, halgo]

/-- Witness for C8: an unknown username, and a record with an unknown
algorithm tag. -/
theorem c8_verify_never_raises_witness :
    verify_user kdf0 (fun _ => none) "ghost" "pw" = false ∧
    verify_user kdf0 (fun _ => some ⟨"s", "pw", 1, "md5"⟩) "u" "pw" = false :=
  ⟨(c8_verify_never_raises kdf0 (fun _ => none) "ghost" "pw").1 rfl,
   (c8_verify_never_raises kdf0 (fun _ => some ⟨"s", "pw", 1, "md5"⟩) "u" "pw").2
     ⟨"s", "pw", 1, "md5"⟩ rfl (by decide)⟩

/-- C1: for every method, if the Proxy-Authorization header is missing, or
does not decode as Basic credentials, or verify_user rejects the decoded
credentials, the handler answers 407 with the Proxy-Authenticate Basic realm
header and does not proceed to any relay. -/
theorem c1_auth_gate (kdf : Pbkdf2) (db : Db) (m : Method) (path : String)
    (hs : List (String × String))
    (hfail : getHeaderCI hs "Proxy-Authorization" = none ∨
      (∃ a, getHeaderCI hs "Proxy-Authorization" = some a ∧ parse_basic_auth a = none) ∨
      (∃ a u pw, getHeaderCI hs "Proxy-Authorization" = some a ∧
        parse_basic_auth a = some (u, pw) ∧ verify_user kdf db u pw = false)) :
    handleRequest kdf db m path hs = .respond authRequiredResponse ∧
    authRequiredResponse.status = 407 ∧
    ("Proxy-Authenticate", "Basic realm=\"SecureProxy\"") ∈ authRequiredResponse.headers := by
  refine ⟨?_, rfl, by simp [authRequiredResponse]⟩
  have hca : check_auth kdf db hs = false := by
    rcases hfail with h | ⟨a, ha, hp⟩ | ⟨a, u, pw, ha, hp, hv⟩
    · simp [check_auth, h]
    · by_cases hae : a = ""
      · simp [check_auth, ha, hae]
      · simp [check_auth, ha, hae, hp]
    · by_cases hae : a = ""
      · simp [check_auth, ha, hae]
      · by_cases hue : u = ""
        · simp [check_auth, ha, hae, hp, hue]
        · simp [check_auth, ha, hae, hp, hue, hv]
  simp [handleRequest, hca]

/-- Witness for C1: a GET with no Proxy-Authorization header at all. -/
theorem c1_auth_gate_witness :
    handleRequest kdf0 db0 .GET "http://example.org/" [] = .respond authRequiredResponse ∧
    authRequiredResponse.status = 407 ∧
    ("Proxy-Authenticate", "Basic realm=\"SecureProxy\"") ∈ authRequiredResponse.headers :=
  c1_auth_gate kdf0 db0 .GET "http://example.org/" [] (Or.inl rfl)

/-- C10: credentials that decode to an empty username are rejected with 407
regardless of the store contents, because check_auth treats the empty
username as falsy before consulting verify_user. -/
theorem c10_empty_username_rejected (kdf : Pbkdf2) (db : Db) (m : Method)
    (path : String) (hs : List (String × String)) (a pw : String)
    (ha : getHeaderCI hs "Proxy-Authorization" = some a)
    (hp : parse_basic_auth a = some ("", pw)) :
    handleRequest kdf db m path hs = .respond authRequiredResponse := by
  have hca : check_auth kdf db hs = false := by
    by_cases hae : a = ""
    · simp [check_auth, ha, hae]
    · simp [check_auth, ha, hae, hp]
  simp [handleRequest, hca]

/-- Witness for C10: Basic OnB3 is base64 of ":pw"; the store even holds a
matching record for the empty username, yet the request is still 407d. -/
theorem c10_empty_username_rejected_witness :
    handleRequest kdf0
      (fun q => if q = "" then some ⟨"s", "pw", 200000, "pbkdf2_sha256"⟩ else none)
      .CONNECT "example.org:443" [("Proxy-Authorization", "Basic OnB3")] =
      .respond authRequiredResponse :=
  c10_empty_username_rejected kdf0
    (fun q => if q = "" then some ⟨"s", "pw", 200000, "pbkdf2_sha256"⟩ else none)
    .CONNECT "example.org:443" [("Proxy-Authorization", "Basic OnB3")] "Basic OnB3" "pw"
    (by decide) (by decide)

/-- C6: a select round signalling no readiness ends the relay loop as an idle
timeout (whatever came before and whatever would come after), and whenever
the loop exits for any reason — peer close, timeout, or I/O error — the
try/finally closes both the client and the upstream socket. -/
theorem c6_tunnel_teardown :
    (∀ pre post, (relayLoop pre).exit = .ongoing →
      (relayLoop (pre ++ .timeout :: post)).exit = .idleTimeout) ∧
    (∀ evs, (relayLoop evs).exit ≠ .ongoing → (runTunnel evs).2 = (true, true)) := by
  constructor
  · intro pre
    induction pre with
    | nil => intro post _; rfl
    | cons ev rest ih =>
      intro post h
      cases ev with
      | timeout => simp [relayLoop] at h
      | ioFailure => simp [relayLoop] at h
      | evData c r =>
        rcases c with _ | (_ | ⟨b, bs⟩) <;> rcases r with _ | (_ | ⟨b2, bs2⟩) <;>
          simp [relayLoop] at h ⊢ <;> exact ih post h
  · intro evs h
    rcases hx : (relayLoop evs).exit
    case ongoing => exact absurd hx h
    all_goals simp [runTunnel, hx]

/-- Witness for C6: with no earlier events the loop is still ongoing, so a
timeout event terminates it and both sockets get closed. -/
theorem c6_tunnel_teardown_witness :
    (relayLoop ([] ++ TunnelEv.timeout :: [])).exit = .idleTimeout ∧
    (runTunnel [TunnelEv.timeout]).2 = (true, true) :=
  ⟨c6_tunnel_teardown.1 [] [] rfl, c6_tunnel_teardown.2 [TunnelEv.timeout] (by decide)⟩

/-- The fuelled body loop copies exactly remaining bytes whenever the stream
has them and the fuel covers remaining. -/
theorem forwardBodyFuel_take (fuel : Nat) : ∀ (remaining : Nat) (stream : List Nat),
    remaining ≤ fuel → remaining ≤ stream.length →
    forwardBodyFuel fuel remaining stream = stream.take remaining := by
  induction fuel with
  | zero =>
    intro remaining stream hfuel _
    interval_cases remaining
    rfl
  | succ fuel ih =>
    intro remaining stream hfuel hlen
    rcases Nat.eq_zero_or_pos remaining with h0 | hpos
    · subst h0; rfl
    · have hne : remaining ≠ 0 := Nat.pos_iff_ne_zero.1 hpos
      have hminpos : 0 < min 8192 remaining := lt_min (by norm_num) hpos
      have hminle : min 8192 remaining ≤ remaining := min_le_right _ _
      have hchunklen : (stream.take (min 8192 remaining)).length = min 8192 remaining := by
        rw [List.length_take]
        exact min_eq_left (le_trans hminle hlen)
      have hchunkne : (stream.take (min 8192 remaining)).isEmpty = false := by
        rcases hl : stream.take (min 8192 remaining) with _ | ⟨a, l⟩
        · rw [hl] at hchunklen
          simp at hchunklen
          omega
        · rfl
      simp only [forwardBodyFuel, if_neg hne, hchunkne, Bool.false_eq_true, if_false,
        hchunklen]
      rw [ih (remaining - min 8192 remaining) (stream.drop (min 8192 remaining))
        (by omega) (by rw [List.length_drop]; omega)]
      conv_rhs =>
        rw [show remaining = min 8192 remaining + (remaining - min 8192 remaining) by omega,
          List.take_add]

/-- C9: for a forward request with Content-Length n whose client stream
supplies at least n bytes, the body loop reads and sends exactly the first n
bytes, unaltered and in order. -/
theorem c9_body_exact (n : Nat) (stream : List Nat) (h : n ≤ stream.length) :
    forwardBody n stream = stream.take n ∧ (forwardBody n stream).length = n := by
  have heq : forwardBody n stream = stream.take n :=
    forwardBodyFuel_take n n stream le_rfl h
  refine ⟨heq, ?_⟩
  rw [heq, List.length_take]
  omega

/-- Witness for C9 at a concrete length and stream. -/
theorem c9_body_exact_witness :
    forwardBody 3 [7, 8, 9, 10] = [7, 8, 9] ∧ (forwardBody 3 [7, 8, 9, 10]).length = 3 := by
  have h := c9_body_exact 3 [7, 8, 9, 10] (by decide)
  exact ⟨h.1.trans (by decide), h.2⟩

/-- C7 counterexample: the reverse relay does not accept every path — a GET
for the path healthz gets the 404 JSON error and is not forwarded to the
upstream. -/
theorem c7_counterexample :
    proxyRoute "GET" "healthz" = .notFound404 ∧
    proxyRoute "GET" "healthz" ≠ .forwardTo "https://api.openai.com/healthz" := by
  decide

/-- C7 amended: for every supported method, a request path starting with v1/
is forwarded to the one fixed upstream host over TLS (the https URL on
api.openai.com), and every other path gets the 404 JSON error instead of
being forwarded. -/
theorem c7_reverse_relay (m path : String) (hm : m ∈ SUPPORTED_METHODS) :
    (listStartsWith path.data "v1/".data = true →
      proxyRoute m path = .forwardTo ("https://api.openai.com/" ++ path)) ∧
    (listStartsWith path.data "v1/".data = false →
      proxyRoute m path = .notFound404) := by
  constructor <;> intro h <;> simp [proxyRoute, hm, h]

/-- Witness for C7 at a forwarded path and a rejected path. -/
theorem c7_reverse_relay_witness :
    proxyRoute "GET" "v1/chat/completions" = .forwardTo "https://api.openai.com/v1/chat/completions" ∧
    proxyRoute "GET" "healthz" = .notFound404 := by
  refine ⟨?_, (c7_reverse_relay "GET" "healthz" (by decide)).2 (by decide)⟩
  have h := (c7_reverse_relay "GET" "v1/chat/completions" (by decide)).1 (by decide)
  exact h.trans (by decide)

/-- Decimal digit characters have code points between 48 and 57. -/
theorem char_digit_bounds {c : Char} (h : c.isDigit = true) :
    48 ≤ c.toNat ∧ c.toNat ≤ 57 := by
  simp only [Char.isDigit, ge_iff_le, Bool.and_eq_true, decide_eq_true_eq] at h
  exact ⟨UInt32.le_toNat_of_le (by norm_num) h.1, UInt32.toNat_le_of_le (by norm_num) h.2⟩

/-- A decimal digit is not Python whitespace, a colon, a sign, or an
underscore. -/
theorem digit_not_special {c : Char} (h : c.isDigit = true) :
    isPySpace c = false ∧ c ≠ ':' ∧ c ≠ '+' ∧ c ≠ '-' ∧ c ≠ '_' := by
  obtain ⟨h1, h2⟩ := char_digit_bounds h
  refine ⟨?_, ?_, ?_, ?_, ?_⟩
  · simp only [isPySpace, List.mem_cons, List.not_mem_nil, or_false,
      decide_eq_false_iff_not]
    omega
  all_goals
    intro he
    subst he
    revert h1 h2
    decide

/-- dropWhile does nothing when no element satisfies the predicate. -/
theorem dropWhile_eq_self_of (l : List Char) (h : ∀ c ∈ l, isPySpace c = false) :
    l.dropWhile isPySpace = l := by
  cases l with
  | nil => rfl
  | cons c rest =>
    rw [List.dropWhile_cons, h c (by simp)]
    simp

/-- Stripping whitespace from an all-digit string does nothing. -/
theorem pyStrip_digits {ds : List Char} (h : ∀ c ∈ ds, c.isDigit = true) :
    pyStrip ds = ds := by
  have hall : ∀ c ∈ ds, isPySpace c = false := fun c hc => (digit_not_special (h c hc)).1
  unfold pyStrip
  rw [dropWhile_eq_self_of _ hall, dropWhile_eq_self_of, List.reverse_reverse]
  intro c hc
  exact hall c (List.mem_reverse.1 hc)

/-- An all-digit tail is a valid int-literal continuation. -/
theorem pyDigitsRest_digits {ds : List Char} (h : ∀ c ∈ ds, c.isDigit = true) :
    pyDigitsRest ds = true := by
  induction ds with
  | nil => rfl
  | cons c rest ih =>
    have hc := h c (by simp)
    have hcu : c ≠ '_' := (digit_not_special hc).2.2.2.2
    rw [pyDigitsRest.eq_def]
    simp only [if_neg hcu, hc, Bool.true_and]
    exact ih (fun c2 hc2 => h c2 (by simp [hc2]))

/-- A nonempty all-digit string is a valid int literal digit part. -/
theorem pyDigitsOk_digits {ds : List Char} (hne : ds ≠ []) (h : ∀ c ∈ ds, c.isDigit = true) :
    pyDigitsOk ds = true := by
  cases ds with
  | nil => exact absurd rfl hne
  | cons c rest =>
    simp only [pyDigitsOk, h c (by simp), Bool.true_and]
    exact pyDigitsRest_digits (fun c2 hc2 => h c2 (by simp [hc2]))

/-- Python int() on a nonempty all-digit string parses to its decimal
value. -/
theorem pyInt_digits {ds : List Char} (hne : ds ≠ []) (h : ∀ c ∈ ds, c.isDigit = true) :
    pyInt ds = some (Int.ofNat (digitsValU ds)) := by
  have h1 : pyStrip ds = ds := pyStrip_digits h
  cases ds with
  | nil => exact absurd rfl hne
  | cons c rest =>
    have hc := h c (by simp)
    have hplus : c ≠ '+' := (digit_not_special hc).2.2.1
    have hminus : c ≠ '-' := (digit_not_special hc).2.2.2.1
    simp only [pyInt, h1, if_neg hplus, if_neg hminus,
      if_pos (pyDigitsOk_digits (by simp) h)]

/-- rpartition finds no colon in a colon-free string. -/
theorem rpartList_eq_none {s : List Char} (h : ':' ∉ s) : rpartList s = none := by
  induction s with
  | nil => rfl
  | cons c rest ih =>
    have hc : c ≠ ':' := fun he => h (by simp [he])
    simp only [rpartList, ih (fun hm => h (by simp [hm])), if_neg hc]

/-- rpartition splits at the last colon: appending a colon and a colon-free
tail to any head splits exactly there. -/
theorem rpartList_append (h0 : List Char) {p : List Char} (hp : ':' ∉ p) :
    rpartList (h0 ++ ':' :: p) = some (h0, p) := by
  induction h0 with
  | nil => simp [List.nil_append, rpartList, rpartList_eq_none hp]
  | cons c rest ih => simp only [List.cons_append, rpartList, List.append_eq, ih]

/-- C4 counterexample: with valid credentials, a CONNECT to the portless
target example.com does not default to port 443; rpartition leaves the whole
target in the port slot and int() raises an uncaught ValueError, so no
tunnel target is produced at all. -/
theorem c4_counterexample :
    handleRequest kdf0 db0 .CONNECT "example.com" hs0 = .uncaughtError ∧
    handleRequest kdf0 db0 .CONNECT "example.com" hs0 ≠
      .openTunnel "example.com".data 443 := by
  decide

/-- C4 amended: for an authenticated CONNECT the target splits at the LAST
colon of the request target; a nonempty all-digit suffix becomes the port; an
empty suffix after a trailing colon defaults to 443; and a request target
with no colon that is not itself an int literal raises an uncaught ValueError
instead of defaulting to 443. -/
theorem c4_connect_target (kdf : Pbkdf2) (db : Db) (hs : List (String × String))
    (hauth : check_auth kdf db hs = true) (host ds : List Char) :
    (ds ≠ [] → (∀ c ∈ ds, c.isDigit = true) →
      handleRequest kdf db .CONNECT (String.mk (host ++ ':' :: ds)) hs =
        .openTunnel host (Int.ofNat (digitsValU ds))) ∧
    handleRequest kdf db .CONNECT (String.mk (host ++ [':'])) hs = .openTunnel host 443 ∧
    (∀ s : List Char, ':' ∉ s → s ≠ [] → pyInt s = none →
      handleRequest kdf db .CONNECT (String.mk s) hs = .uncaughtError) := by
  refine ⟨?_, ?_, ?_⟩
  · intro hne hdig
    have hnc : ':' ∉ ds := fun hm => absurd (hdig ':' hm) (by decide)
    have htgt : connectTarget (host ++ ':' :: ds) = some (host, Int.ofNat (digitsValU ds)) := by
      simp [connectTarget, rpartList_append host hnc, hne, pyInt_digits hne hdig]
    simp [handleRequest, hauth, htgt]
  · have htgt : connectTarget (host ++ [':']) = some (host, 443) := by
      simp [connectTarget, rpartList_append host (List.not_mem_nil ':')]
    simp [handleRequest, hauth, htgt]
  · intro s hcolon hne hpy
    have htgt : connectTarget s = none := by
      simp [connectTarget, rpartList_eq_none hcolon, hne, hpy]
    simp [handleRequest, hauth, htgt]

/-- Witness for C4 amended: a digit port, a trailing colon, and a colon-free
target, all with valid credentials. -/
theorem c4_connect_target_witness :
    handleRequest kdf0 db0 .CONNECT "example.org:8443" hs0 =
      .openTunnel "example.org".data 8443 ∧
    handleRequest kdf0 db0 .CONNECT "example.org:" hs0 = .openTunnel "example.org".data 443 ∧
    handleRequest kdf0 db0 .CONNECT "plainhost" hs0 = .uncaughtError := by
  have h := c4_connect_target kdf0 db0 hs0 (by decide) "example.org".data "8443".data
  exact ⟨h.1 (by decide) (by decide), h.2.1,
    h.2.2 "plainhost".data (by decide) (by decide) (by decide)⟩

/-- Entries of a Python dict after one assignment come from the dict or are
the assigned pair. -/
theorem mem_dictUpd {d : List (String × String)} {k v : String} {kv : String × String}
    (h : kv ∈ dictUpd d k v) : kv ∈ d ∨ kv = (k, v) := by
  unfold dictUpd at h
  split at h
  · rcases List.mem_map.1 h with ⟨kv2, hkv2, heq⟩
    by_cases hk : kv2.1 = k
    · rw [if_pos hk] at heq
      exact Or.inr heq.symm
    · rw [if_neg hk] at heq
      exact Or.inl (heq ▸ hkv2)
  · rcases List.mem_append.1 h with h2 | h2
    · exact Or.inl h2
    · exact Or.inr (by simpa using h2)

/-- Entries of a dict built by repeated assignment come from the seed dict or
from the assignment list. -/
theorem mem_foldl_dictUpd : ∀ (l d : List (String × String)) (kv : String × String),
    kv ∈ l.foldl (fun d2 kv2 => dictUpd d2 kv2.1 kv2.2) d → kv ∈ d ∨ kv ∈ l := by
  intro l
  induction l with
  | nil =>
    intro d kv h
    exact Or.inl (by simpa using h)
  | cons a rest ih =>
    intro d kv h
    rw [List.foldl_cons] at h
    rcases ih _ kv h with h2 | h2
    · rcases mem_dictUpd h2 with h3 | h3
      · exact Or.inl h3
      · exact Or.inr (by simp [h3])
    · exact Or.inr (List.mem_cons_of_mem a h2)

/-- Entries of pyDictOf come from the input list. -/
theorem mem_pyDictOf {l : List (String × String)} {kv : String × String}
    (h : kv ∈ pyDictOf l) : kv ∈ l := by
  rcases mem_foldl_dictUpd l [] kv h with h2 | h2
  · simp at h2
  · exact h2

/-- dictGet hits only entries of the dict. -/
theorem dictGet_mem {d : List (String × String)} {k v : String}
    (h : dictGet k d = some v) : (k, v) ∈ d := by
  induction d with
  | nil => simp [dictGet] at h
  | cons kv rest ih =>
    rw [dictGet] at h
    split at h
    · rename_i hk
      have hv : kv.2 = v := Option.some.inj h
      have hkv : (k, v) = kv := by rw [← hk, ← hv]
      simp [hkv]
    · exact List.mem_cons_of_mem _ (ih h)

/-- dictGet misses when no key matches. -/
theorem dictGet_eq_none {d : List (String × String)} {k : String}
    (h : d.any (fun kv => kv.1 = k) = false) : dictGet k d = none := by
  induction d with
  | nil => rfl
  | cons kv rest ih =>
    simp only [List.any_cons, Bool.or_eq_false_iff, decide_eq_false_iff_not] at h
    rw [dictGet, if_neg h.1]
    exact ih (by simpa using h.2)

/-- dictGet distributes over append, preferring the left dict. -/
theorem dictGet_append (k : String) : ∀ d1 d2 : List (String × String),
    dictGet k (d1 ++ d2) =
      (match dictGet k d1 with
       | some v => some v
       | none => dictGet k d2) := by
  intro d1
  induction d1 with
  | nil => intro d2; rfl
  | cons kv rest ih =>
    intro d2
    rw [List.cons_append, dictGet, dictGet]
    by_cases hk : kv.1 = k
    · rw [if_pos hk, if_pos hk]
    · rw [if_neg hk, if_neg hk, ih]

/-- Replacing all entries of an existing key makes lookup return the new
value. -/
theorem dictGet_map_replace {d : List (String × String)} {k v : String}
    (hany : d.any (fun kv => kv.1 = k) = true) :
    dictGet k (d.map (fun kv => if kv.1 = k then (k, v) else kv)) = some v := by
  induction d with
  | nil => simp at hany
  | cons kv rest ih =>
    simp only [List.map_cons]
    by_cases hk : kv.1 = k
    · rw [if_pos hk, dictGet, if_pos rfl]
    · rw [if_neg hk, dictGet, if_neg hk]
      apply ih
      simp only [List.any_cons, Bool.or_eq_true, decide_eq_true_eq] at hany
      rcases hany with h | h
      · exact absurd h hk
      · simpa using h

/-- After an assignment, lookup of the assigned key gives the assigned
value. -/
theorem dictGet_dictUpd_self (d : List (String × String)) (k v : String) :
    dictGet k (dictUpd d k v) = some v := by
  unfold dictUpd
  split
  · exact dictGet_map_replace (by assumption)
  · rename_i hany
    have hf : d.any (fun kv => kv.1 = k) = false := by
      cases hb : d.any (fun kv => kv.1 = k) with
      | false => rfl
      | true => exact absurd hb hany
    rw [dictGet_append, dictGet_eq_none hf]
    simp [dictGet]

/-- Lookup of other keys is unchanged by replacement of one key. -/
theorem dictGet_map_other {k k2 : String} (hne : k ≠ k2) (v : String) :
    ∀ d : List (String × String),
      dictGet k (d.map (fun kv => if kv.1 = k2 then (k2, v) else kv)) = dictGet k d := by
  intro d
  induction d with
  | nil => rfl
  | cons kv rest ih =>
    simp only [List.map_cons]
    by_cases hk2 : kv.1 = k2
    · rw [if_pos hk2, dictGet, if_neg (fun h => hne h.symm), dictGet,
        if_neg (by rw [hk2]; exact fun h => hne h.symm), ih]
    · rw [if_neg hk2, dictGet, dictGet]
      by_cases hk : kv.1 = k
      · rw [if_pos hk, if_pos hk]
      · rw [if_neg hk, if_neg hk, ih]

/-- After an assignment, lookup of a different key is unchanged. -/
theorem dictGet_dictUpd_other {k k2 : String} (hne : k ≠ k2)
    (d : List (String × String)) (v : String) :
    dictGet k (dictUpd d k2 v) = dictGet k d := by
  unfold dictUpd
  split
  · exact dictGet_map_other hne v d
  · rw [dictGet_append]
    rcases hg : dictGet k d with _ | v2
    · simp [dictGet, Ne.symm hne]
    · simp

/-- Lookup in the dict built by repeated assignment returns the value of the
last assignment of the key, falling back to the seed dict. -/
theorem dictGet_foldl (k : String) : ∀ (l d : List (String × String)),
    dictGet k (l.foldl (fun d2 kv => dictUpd d2 kv.1 kv.2) d) =
      (match lookupLast k l with
       | some v => some v
       | none => dictGet k d) := by
  intro l
  induction l with
  | nil => intro d; rfl
  | cons a rest ih =>
    intro d
    rw [List.foldl_cons, ih (dictUpd d a.1 a.2)]
    rcases hl : lookupLast k rest with _ | v
    · by_cases hk : a.1 = k
      · rw [hk, dictGet_dictUpd_self]
        simp [lookupLast, hl, hk]
      · rw [dictGet_dictUpd_other (fun h => hk h.symm)]
        simp [lookupLast, hl, hk]
    · simp [lookupLast, hl]

/-- pyDictOf realizes last-value-wins lookup. -/
theorem dictGet_pyDictOf (k : String) (l : List (String × String)) :
    dictGet k (pyDictOf l) = lookupLast k l := by
  rw [pyDictOf, dictGet_foldl]
  rcases hl : lookupLast k l with _ | v
  · rfl
  · rfl

/-- A cons whose key differs does not affect lookupLast. -/
theorem lookupLast_cons_ne {k : String} {kv : String × String}
    {rest : List (String × String)} (h : kv.1 ≠ k) :
    lookupLast k (kv :: rest) = lookupLast k rest := by
  rw [lookupLast]
  rcases hl : lookupLast k rest with _ | v
  · simp [h]
  · rfl

/-- Filtering by a predicate on the key that holds at k preserves
lookupLast at k. -/
theorem lookupLast_filter {k : String} (pk : String → Bool) (hpk : pk k = true) :
    ∀ hs : List (String × String),
      lookupLast k (hs.filter (fun kv => pk kv.1)) = lookupLast k hs := by
  intro hs
  induction hs with
  | nil => rfl
  | cons kv rest ih =>
    rw [List.filter_cons]
    by_cases hp2 : pk kv.1 = true
    · rw [if_pos hp2, lookupLast, lookupLast, ih]
    · have hk : kv.1 ≠ k := fun he => hp2 (by rw [he, hpk])
      rw [if_neg (by simp [hp2]), ih, (lookupLast_cons_ne hk).symm]

/-- C5 counterexample: an authenticated forward request whose client sends
the header X-A twice does not have all its non-hop-by-hop headers forwarded
unchanged — the first X-A value is dropped by the dict comprehension, only
the last survives. -/
theorem c5_counterexample :
    ("X-A", "1") ∈ [("X-A", "1"), ("X-A", "2")] ∧
    lowerStr "X-A" ∉ HOP_BY_HOP ∧
    lowerStr "X-A" ≠ "proxy-authorization" ∧
    ("X-A", "1") ∉ buildForwardHeaders [("X-A", "1"), ("X-A", "2")] "tgt" ∧
    buildForwardHeaders [("X-A", "1"), ("X-A", "2")] "tgt" =
      [("X-A", "2"), ("Host", "tgt")] := by
  decide

/-- C5 amended: the upstream headers of an authenticated forward request
contain no hop-by-hop header and no Proxy-Authorization in any
capitalization; every non-hop-by-hop client header name is forwarded with
its last client-sent value (so a client that never repeats a header name
case-sensitively gets all its other headers through unchanged, while for a
repeated name only the last value is forwarded); a Host header is always
present, and when the client sent no Host header in any capitalization its
value is the resolved target host. -/
theorem c5_forward_headers (hs : List (String × String)) (target : String) :
    (∀ kv ∈ buildForwardHeaders hs target, lowerStr kv.1 ∉ HOP_BY_HOP) ∧
    (∀ kv ∈ buildForwardHeaders hs target, lowerStr kv.1 ≠ "proxy-authorization") ∧
    (∀ k v, lowerStr k ∉ HOP_BY_HOP → lookupLast k hs = some v →
      (k, v) ∈ buildForwardHeaders hs target) ∧
    (∃ v, ("Host", v) ∈ buildForwardHeaders hs target) ∧
    ((∀ kv ∈ hs, lowerStr kv.1 ≠ "host") →
      ("Host", target) ∈ buildForwardHeaders hs target) := by
  have hmem_d : ∀ kv ∈ dictPop (filter_headers hs) "Proxy-Authorization",
      kv ∈ hs.filter (fun kv2 => keepHeader kv2.1) := by
    intro kv hkv
    exact mem_pyDictOf (List.mem_of_mem_filter hkv)
  have hkeep : ∀ kv ∈ dictPop (filter_headers hs) "Proxy-Authorization",
      lowerStr kv.1 ∉ HOP_BY_HOP := by
    intro kv hkv
    have h2 := (List.mem_filter.1 (hmem_d kv hkv)).2
    simpa [keepHeader] using h2
  have hbuild : ∀ kv ∈ buildForwardHeaders hs target,
      kv ∈ dictPop (filter_headers hs) "Proxy-Authorization" ∨ kv = ("Host", target) := by
    intro kv hkv
    unfold buildForwardHeaders at hkv
    split at hkv
    · exact Or.inl hkv
    · rcases List.mem_append.1 hkv with h2 | h2
      · exact Or.inl h2
      · exact Or.inr (by simpa using h2)
  have hpart1 : ∀ kv ∈ buildForwardHeaders hs target, lowerStr kv.1 ∉ HOP_BY_HOP := by
    intro kv hkv
    rcases hbuild kv hkv with h2 | h2
    · exact hkeep kv h2
    · rw [h2]
      show lowerStr "Host" ∉ HOP_BY_HOP
      decide
  refine ⟨hpart1, ?_, ?_, ?_, ?_⟩
  · intro kv hkv he
    exact hpart1 kv hkv (by rw [he]; decide)
  · intro k v hk hlast
    have hkeepk : keepHeader k = true := by simpa [keepHeader] using hk
    have hget : dictGet k (pyDictOf (hs.filter (fun kv => keepHeader kv.1))) = some v := by
      rw [dictGet_pyDictOf, lookupLast_filter keepHeader hkeepk, hlast]
    have hmem : (k, v) ∈ pyDictOf (hs.filter (fun kv => keepHeader kv.1)) := dictGet_mem hget
    have hkne : k ≠ "Proxy-Authorization" := by
      intro he
      rw [he] at hk
      exact hk (by decide)
    have hmem2 : (k, v) ∈ dictPop (filter_headers hs) "Proxy-Authorization" := by
      unfold dictPop filter_headers
      exact List.mem_filter.2 ⟨hmem, by simpa using hkne⟩
    unfold buildForwardHeaders
    split
    · exact hmem2
    · exact List.mem_append_left _ hmem2
  · unfold buildForwardHeaders
    split
    · rename_i hhost
      rcases List.any_eq_true.1 hhost with ⟨kv, hm, hp⟩
      refine ⟨kv.2, ?_⟩
      have : ("Host", kv.2) = kv := by
        have h1 : kv.1 = "Host" := by simpa using hp
        rw [← h1]
      rw [this]
      exact hm
    · exact ⟨target, List.mem_append_right _ (by simp)⟩
  · intro hnone
    unfold buildForwardHeaders
    split
    · rename_i hhost
      rcases List.any_eq_true.1 hhost with ⟨kv, hm, hp⟩
      have h1 : kv.1 = "Host" := by simpa using hp
      have h2 : kv ∈ hs := List.mem_of_mem_filter (hmem_d kv hm)
      have h3 := hnone kv h2
      rw [h1] at h3
      exact absurd (by decide : lowerStr "Host" = "host") h3
    · exact List.mem_append_right _ (by simp)

/-- Witness for C5 at a concrete request: a custom header passes through by
the last-value rule, and Host is defaulted to the target host. -/
theorem c5_forward_headers_witness :
    ("X-Custom", "7") ∈
      buildForwardHeaders [("X-Custom", "7"), ("Connection", "close")] "example.org" ∧
    ("Host", "example.org") ∈
      buildForwardHeaders [("X-Custom", "7"), ("Connection", "close")] "example.org" := by
  have h := c5_forward_headers [("X-Custom", "7"), ("Connection", "close")] "example.org"
  exact ⟨h.2.2.1 "X-Custom" "7" (by decide) (by decide), h.2.2.2.2 (by decide)⟩

/-- parseToken succeeds exactly on tokens whose base64 decoding yields text
containing a colon, and then splits at the first colon. -/
theorem parseToken_eq_some (token : List Char) (u p : String) :
    parseToken token = some (u, p) ↔
      ∃ bs, b64decodePy token = some bs ∧ (utf8Ignore bs).contains ':' = true ∧
        u = String.mk (splitFirstColon (utf8Ignore bs)).1 ∧
        p = String.mk (splitFirstColon (utf8Ignore bs)).2 := by
  rcases hb : b64decodePy token with _ | bs
  · simp [parseToken, hb]
  · by_cases hc : (utf8Ignore bs).contains ':' = true
    · simp [parseToken, hb, hc, eq_comm]
    · have hc2 : ¬ (':' ∈ utf8Ignore bs) := by simpa using hc
      simp [parseToken, hb, hc, hc2]

/-- C3: parse_basic_auth returns a credential pair exactly when the header
value is two whitespace-separated tokens whose scheme token lowercases to
basic and whose second token base64-decodes to text containing a colon; the
decoded text is split at the FIRST colon only, as the base64 of alice:pa:ss
shows; every structural violation yields none, and the embedding is a total
function, so no exception can escape. -/
theorem c3_parse_basic_auth :
    (∀ hv u p, parse_basic_auth hv = some (u, p) ↔
      ∃ scheme token, pySplit hv.data = [scheme, token] ∧
        scheme.map Char.toLower = "basic".data ∧
        ∃ bs, b64decodePy token = some bs ∧ (utf8Ignore bs).contains ':' = true ∧
          u = String.mk (splitFirstColon (utf8Ignore bs)).1 ∧
          p = String.mk (splitFirstColon (utf8Ignore bs)).2) ∧
    parse_basic_auth "Basic YWxpY2U6cGE6c3M=" = some ("alice", "pa:ss") := by
  refine ⟨?_, by decide⟩
  intro hv u p
  by_cases he : hv = ""
  · subst he
    rw [parse_basic_auth, if_pos rfl]
    constructor
    · intro h
      cases h
    · rintro ⟨s, t, hsp, _⟩
      rw [show ("" : String).data = [] from rfl] at hsp
      simp [pySplit, pySplitAux] at hsp
  · rw [parse_basic_auth, if_neg he]
    rcases hsp : pySplit hv.data with _ | ⟨s0, _ | ⟨t0, _ | ⟨x0, r0⟩⟩⟩
    · simp
    · simp
    · by_cases hsch : s0.map Char.toLower = "basic".data
      · simp only [hsch, if_pos, parseToken_eq_some]
        constructor
        · rintro ⟨bs, h1, h2, h3, h4⟩
          exact ⟨s0, t0, rfl, hsch, bs, h1, h2, h3, h4⟩
        · rintro ⟨s, t, hst, hb2, bs, h1, h2, h3, h4⟩
          obtain ⟨rfl, rfl⟩ : s0 = s ∧ t0 = t := by
            injection hst with hh ht
            injection ht with ht2
            exact ⟨hh, ht2⟩
          exact ⟨bs, h1, h2, h3, h4⟩
      · simp [hsch]
    · simp

end Proxy
